import Mathlib

/-!
# Verification development for `server_scheduler.hpp` (nova server scheduler)

Shallow embedding of `thread_init_functor`, `audio_sync_callback`,
`scheduler::reset_queue_cb` and `scheduler` from
`source/server/server_scheduler.hpp`.

Conventions of the embedding

* C++ `int` values are Lean `Int`s; arithmetic on them goes through
  `wrap_int`, the reduction to the 32 bit two's complement range.
* Effects are threaded through the monad `M`: a computation maps a `World`
  to an outcome (`Except Error α`) and the world it leaves behind.  A C++
  exception is `Except.error`; the world at the point of the throw is kept.
* Calls into collaborators that are not part of this header are recorded in
  `World.log`, in program order.
* Pointers to schedulers are addresses (`Nat`) into `World.schedulers`.  Every
  address holds a scheduler object: the lifetime contract of the header, that
  a scheduler outlives the callbacks pointing to it, is built in.
* Collaborators whose headers are not part of the development
  (`callback_system`, `dsp_threads`, `static_pooled_class`, the body of
  `scheduler::operator()()`) are modelled from the specification; their
  definitions say so.
-/

namespace nova

/-! ## Machine integers -/

/-- Smallest value of a C++ `int` (32 bit). -/
def INT_MIN : Int := -2147483648

/-- Largest value of a C++ `int` (32 bit). -/
def INT_MAX : Int := 2147483647

/-- Reduction of a mathematical integer to the 32 bit two's complement range. -/
def wrap_int (x : Int) : Int := (x + 2147483648) % 4294967296 - 2147483648

/-- The `int` subtraction `a - b`. -/
def int_sub (a b : Int) : Int := wrap_int (a - b)

/-- The function `std::max(a, b)`: returns `b` when `a < b`, else `a`. -/
def std_max (a b : Int) : Int := if a < b then b else a

/-! ## Data model -/

/-- Identity of a dsp thread queue, as held by a `dsp_thread_queue_ptr`. -/
abbrev Handle := Nat

/-- Failures that can leave a call by an exception. -/
inductive Error where
  | PoolExhausted
  deriving DecidableEq, Repr

/-- The class `audio_sync_callback` with its subclasses: `reset_queue_cb`, the
one subclass defined in this header (fields `sched` and `qptr`), and
`user_cb`, standing for a subclass defined elsewhere, identified by a tag and
carrying its object size. -/
inductive audio_sync_callback where
  | reset_queue_cb (sched : Nat) (qptr : Handle)
  | user_cb (tag : Nat) (size : Nat)
  deriving DecidableEq, Repr

/-- Calls into collaborators, in the order in which they are made. -/
inductive Event where
  | thread_set_priority_rt (priority : Int)
  | thread_set_affinity (cpu : Int)
  | cerr (msg : String)
  | run (cb : audio_sync_callback)
  | threads_reset_queue (sched : Nat) (qptr : Handle)
  | terminate_threads (sched : Nat)
  | barrier_release (sched : Nat)
  | dsp_node (thread : Nat) (node : Nat)
  | tick_end (sched : Nat)
  deriving DecidableEq, Repr

/-- The platform functions of nova-tt and the constants the header takes from
its environment.  They are parameters of the embedding. -/
structure Platform where
  /-- Result of `thread_priority_interval_rt()`: the pair `(min, max)`. -/
  thread_priority_interval_rt : Int × Int
  /-- Success of `thread_set_priority_rt(priority)`; the header ignores it. -/
  thread_set_priority_rt : Int → Bool
  /-- Success of `thread_set_affinity(cpu)`. -/
  thread_set_affinity : Int → Bool
  /-- The value `sizeof(reset_queue_cb)`. -/
  sizeof_reset_queue_cb : Nat
  /-- The nodes of a dsp thread queue, in the order the interpreter hands them out. -/
  queue_nodes : Handle → List Nat

/-- The struct `thread_init_functor`: its one member `rt`. -/
structure thread_init_functor where
  rt : Bool
  deriving DecidableEq, Repr

/-- Modelled from the spec: the state of `callback_system<audio_sync_callback>`
(utilities/callback_system.hpp), the Callback Channel: the pending callbacks
in enqueue order, oldest first. -/
structure callback_system where
  callbacks : List audio_sync_callback
  deriving DecidableEq, Repr

/-- Modelled from the spec: the state of `dsp_threads` (dsp_thread.hpp), the
Worker Pool: the thread count and init functor given at construction, the
installed queue handle and the stop flag set by `terminate_threads`. -/
structure dsp_threads where
  thread_count : Nat
  init_functor : thread_init_functor
  queue : Option Handle
  stopped : Bool
  deriving DecidableEq, Repr

/-- The class `scheduler`: its two data members. -/
structure scheduler where
  cbs : callback_system
  threads : dsp_threads
  deriving DecidableEq, Repr

/-- Modelled from the spec: the state of the static memory pool of
`static_pooled_class<audio_sync_callback, 1<<20, true>`
(utilities/static_pooled_class.hpp), the Realtime Memory Pool: the number of
bytes handed out. -/
structure rt_pool where
  used : Nat
  deriving DecidableEq, Repr

/-- The pool size given in the header: `1<<20` bytes. -/
def rt_pool_size : Nat := 1 <<< 20

/-- Everything a call can read or change. -/
structure World where
  platform : Platform
  pool : rt_pool
  schedulers : Nat → scheduler
  log : List Event

/-- Computations with effects on the `World` that may throw. -/
def M (α : Type) : Type := World → Except Error α × World

/-- Sequencing in `M`: an exception skips the rest. -/
def M.bind {α β : Type} (m : M α) (f : α → M β) : M β := fun w =>
  match m w with
  | (Except.ok a, w') => f a w'
  | (Except.error e, w') => (Except.error e, w')

instance : Monad M where
  pure a := fun w => (Except.ok a, w)
  bind := M.bind

/-- Record a call in the log. -/
def emit (e : Event) : M Unit := fun w =>
  (Except.ok (), { w with log := w.log ++ [e] })

/-- The events a computation adds to the log of `w`. -/
def trace {α : Type} (m : M α) (w : World) : List Event :=
  (m w).2.log.drop w.log.length

/-! ## Platform calls -/

/-- The call `thread_priority_interval_rt()`. -/
def thread_priority_interval_rt : M (Int × Int) := fun w =>
  (Except.ok w.platform.thread_priority_interval_rt, w)

/-- The call `thread_set_priority_rt(priority)`. -/
def thread_set_priority_rt (priority : Int) : M Bool := fun w =>
  (Except.ok (w.platform.thread_set_priority_rt priority),
    { w with log := w.log ++ [Event.thread_set_priority_rt priority] })

/-- The call `thread_set_affinity(cpu)`. -/
def thread_set_affinity (cpu : Int) : M Bool := fun w =>
  (Except.ok (w.platform.thread_set_affinity cpu),
    { w with log := w.log ++ [Event.thread_set_affinity cpu] })

/-- Writing a line to `std::cerr`. -/
def cerr (msg : String) : M Unit := emit (Event.cerr msg)

/-! ## thread_init_functor -/

/-- The text of the warning of `thread_init_functor::operator()`. -/
def affinity_warning : String := "Warning: cannot set thread affinity of dsp thread"

/-- The method `thread_init_functor::operator()(int thread_index)`. -/
def thread_init_functor.call (self : thread_init_functor) (thread_index : Int) : M Unit := do
  if self.rt then
    let (min, max) ← thread_priority_interval_rt
    let priority := int_sub max 3
    let priority := std_max min priority
    let _ ← thread_set_priority_rt priority
  if !(← thread_set_affinity thread_index) then
    cerr affinity_warning

/-! ## The realtime memory pool of audio_sync_callback -/

/-- Modelled from the spec: `operator new` of `static_pooled_class`, the
`acquire` of the Realtime Memory Pool (utilities/static_pooled_class.hpp is
not part of this header): hands out `size` bytes, or fails with
`PoolExhausted` when the `1<<20` byte region cannot serve the request. -/
def static_pooled_class.allocate (size : Nat) : M Unit := fun w =>
  if w.pool.used + size ≤ rt_pool_size then
    (Except.ok (), { w with pool := { used := w.pool.used + size } })
  else
    (Except.error Error.PoolExhausted, w)

/-- Modelled from the spec: `operator delete` of `static_pooled_class`, the
`release` of the Realtime Memory Pool: returns `size` bytes. -/
def static_pooled_class.deallocate (size : Nat) : M Unit := fun w =>
  (Except.ok (), { w with pool := { used := w.pool.used - size } })

/-- The object size of a callback. -/
def audio_sync_callback.sizeof (P : Platform) : audio_sync_callback → Nat
  | audio_sync_callback.reset_queue_cb _ _ => P.sizeof_reset_queue_cb
  | audio_sync_callback.user_cb _ size => size

/-- The expression `new reset_queue_cb(sched, qptr)`: storage from the pool,
then the constructor, which stores its two arguments. -/
def new_reset_queue_cb (sched : Nat) (qptr : Handle) : M audio_sync_callback := fun w =>
  M.bind (static_pooled_class.allocate w.platform.sizeof_reset_queue_cb)
    (fun _ => pure (audio_sync_callback.reset_queue_cb sched qptr)) w

/-- The expression `delete cb`. -/
def delete_cb (cb : audio_sync_callback) : M Unit := fun w =>
  static_pooled_class.deallocate (cb.sizeof w.platform) w

/-! ## Access to scheduler objects -/

/-- Read the scheduler object at address `this`. -/
def read_scheduler (this : Nat) : M scheduler := fun w =>
  (Except.ok (w.schedulers this), w)

/-- Overwrite the scheduler object at address `this`. -/
def write_scheduler (this : Nat) (s : scheduler) : M Unit := fun w =>
  (Except.ok (), { w with schedulers := Function.update w.schedulers this s })

/-! ## dsp_threads -/

/-- Modelled from the spec: `dsp_threads::reset_queue`, the `install` of the
Worker Pool (dsp_thread.hpp is not part of this header), on the `threads`
member of the scheduler at `this`: the pool stores the handle in the location
the workers read at tick start. -/
def dsp_threads.reset_queue (this : Nat) (qptr : Handle) : M Unit := do
  emit (Event.threads_reset_queue this qptr)
  let s ← read_scheduler this
  write_scheduler this { s with threads := { s.threads with queue := some qptr } }

/-- Modelled from the spec: `dsp_threads::terminate_threads`, the `terminate`
of the Worker Pool, on the `threads` member of the scheduler at `this`: sets
the stop flag and joins the workers. -/
def dsp_threads.terminate_threads (this : Nat) : M Unit := do
  emit (Event.terminate_threads this)
  let s ← read_scheduler this
  write_scheduler this { s with threads := { s.threads with stopped := true } }

/-! ## scheduler and its callbacks -/

/-- The method `scheduler::reset_queue_sync(qptr)`. -/
def scheduler.reset_queue_sync (this : Nat) (qptr : Handle) : M Unit :=
  dsp_threads.reset_queue this qptr

/-- The virtual method `audio_sync_callback::run`.  For `reset_queue_cb` it is
`sched->reset_queue_sync(qptr)`, followed in the source only by the comment
`todo: later free the queue in a helper thread`.  The body of a callback
class defined elsewhere does not touch the state modelled here. -/
def audio_sync_callback.run : audio_sync_callback → M Unit
  | audio_sync_callback.reset_queue_cb sched qptr => scheduler.reset_queue_sync sched qptr
  | audio_sync_callback.user_cb _ _ => pure ()

/-- Modelled from the spec: `callback_system::add_callback`, the `post` of the
Callback Channel (utilities/callback_system.hpp is not part of this header),
on the `cbs` member of the scheduler at `this`: enqueue at the tail. -/
def callback_system.add_callback (this : Nat) (cb : audio_sync_callback) : M Unit := do
  let s ← read_scheduler this
  write_scheduler this { s with cbs := { callbacks := s.cbs.callbacks ++ [cb] } }

/-- Modelled from the spec: what the drain does with one dequeued callback:
invoke it, then release it back to the pool. -/
def callback_system.run_callback (cb : audio_sync_callback) : M Unit := do
  emit (Event.run cb)
  cb.run
  delete_cb cb

/-- Modelled from the spec: the drain loop over the callbacks that were
enqueued when the drain began, in enqueue order. -/
def callback_system.run_each : List audio_sync_callback → M Unit
  | [] => pure ()
  | cb :: rest => do
    callback_system.run_callback cb
    callback_system.run_each rest

/-- Modelled from the spec: `callback_system::run_callbacks`, the `drain_all`
of the Callback Channel, on the `cbs` member of the scheduler at `this`. -/
def callback_system.run_callbacks (this : Nat) : M Unit := do
  let s ← read_scheduler this
  write_scheduler this { s with cbs := { callbacks := [] } }
  callback_system.run_each s.cbs.callbacks

/-- The destructor `scheduler::~scheduler()`: its body. -/
def scheduler.destructor (this : Nat) : M Unit := do
  callback_system.run_callbacks this
  dsp_threads.terminate_threads this

/-- The method `scheduler::add_sync_callback(cb)`. -/
def scheduler.add_sync_callback (this : Nat) (cb : audio_sync_callback) : M Unit :=
  callback_system.add_callback this cb

/-- The method `scheduler::reset_queue(qptr)`. -/
def scheduler.reset_queue (this : Nat) (qptr : Handle) : M Unit := do
  let cb ← new_reset_queue_cb this qptr
  scheduler.add_sync_callback this cb

/-- Post a sequence of callbacks, in order, through `add_sync_callback`. -/
def post_all (this : Nat) : List audio_sync_callback → M Unit
  | [] => pure ()
  | cb :: rest => do
    scheduler.add_sync_callback this cb
    post_all this rest

/-! ## The driver entry point and the tick protocol -/

/-- A scheduler with an empty channel, `thread_count` threads and no queue installed. -/
def fresh_scheduler (thread_count : Nat) (realtime : Bool) : scheduler :=
  { cbs := { callbacks := [] },
    threads := { thread_count := thread_count, init_functor := { rt := realtime },
                 queue := none, stopped := false } }

/-- A platform with the given priority interval and affinity result. -/
def sample_platform (min max : Int) (affinity_ok : Bool) : Platform :=
  { thread_priority_interval_rt := (min, max),
    thread_set_priority_rt := fun _ => true,
    thread_set_affinity := fun _ => affinity_ok,
    sizeof_reset_queue_cb := 24,
    queue_nodes := fun q => [10 * q, 10 * q + 1, 10 * q + 2] }

/-- A world on the given platform: `used` bytes of the pool handed out, a fresh
scheduler of four threads at every address, nothing logged yet. -/
def sample_world (P : Platform) (used : Nat) : World :=
  { platform := P, pool := { used := used },
    schedulers := fun _ => fresh_scheduler 4 false, log := [] }

/-! ## Observations on the log -/

/-- The priorities passed to `thread_set_priority_rt`, in order. -/
def priority_sets : List Event → List Int
  | [] => []
  | Event.thread_set_priority_rt p :: es => p :: priority_sets es
  | _ :: es => priority_sets es

/-- The cpu indices passed to `thread_set_affinity`, in order. -/
def affinity_attempts : List Event → List Int
  | [] => []
  | Event.thread_set_affinity c :: es => c :: affinity_attempts es
  | _ :: es => affinity_attempts es

/-- The lines written to `std::cerr`, in order. -/
def warnings : List Event → List String
  | [] => []
  | Event.cerr m :: es => m :: warnings es
  | _ :: es => warnings es

/-- The callbacks whose `run` was invoked, in order. -/
def invocations : List Event → List audio_sync_callback
  | [] => []
  | Event.run cb :: es => cb :: invocations es
  | _ :: es => invocations es

/-- The arguments of the calls of `dsp_threads::reset_queue`, in order. -/
def installs : List Event → List (Nat × Handle)
  | [] => []
  | Event.threads_reset_queue a q :: es => (a, q) :: installs es
  | _ :: es => installs es

/-- The events a drain can add to the log: invocations of callbacks and the
installs they make. -/
def Event.is_drain : Event → Bool
  | Event.run _ => true
  | Event.threads_reset_queue _ _ => true
  | _ => false

/-- The scheduler at `this` with the handle `q` installed in place of its own. -/
def with_installed (w : World) (this : Nat) (q : Option Handle) : World :=
  { w with schedulers := (Function.update w.schedulers this
      { w.schedulers this with threads := { (w.schedulers this).threads with queue := q } }) }

/-! ## Theorems -/

@[simp] theorem M.pure_apply {α : Type} (a : α) (w : World) :
    (pure a : M α) w = (Except.ok a, w) := rfl

@[simp] theorem M.bind_apply {α β : Type} (m : M α) (f : α → M β) (w : World) :
    (m >>= f) w = M.bind m f w := rfl

theorem call_eq (self : thread_init_functor) (i : Int) (w : World) :
    self.call i w = (Except.ok (),
      { w with log := w.log ++
          ((if self.rt then
              [Event.thread_set_priority_rt
                (std_max w.platform.thread_priority_interval_rt.1
                  (int_sub w.platform.thread_priority_interval_rt.2 3))]
            else []) ++
           [Event.thread_set_affinity i] ++
           (if w.platform.thread_set_affinity i then [] else [Event.cerr affinity_warning])) }) := by
  cases self with
  | mk rt =>
    cases rt <;> cases h : w.platform.thread_set_affinity i <;>
      simp [thread_init_functor.call, M.bind, thread_priority_interval_rt,
        thread_set_priority_rt, thread_set_affinity, cerr, emit, h]

theorem trace_of_log {α : Type} (m : M α) (w : World) (evs : List Event)
    (h : (m w).2.log = w.log ++ evs) : trace m w = evs := by
  simp [trace, h]

theorem priority_sets_append (xs ys : List Event) :
    priority_sets (xs ++ ys) = priority_sets xs ++ priority_sets ys := by
  induction xs with
  | nil => rfl
  | cons e es ih => cases e <;> simp [priority_sets, ih]

theorem affinity_attempts_append (xs ys : List Event) :
    affinity_attempts (xs ++ ys) = affinity_attempts xs ++ affinity_attempts ys := by
  induction xs with
  | nil => rfl
  | cons e es ih => cases e <;> simp [affinity_attempts, ih]

theorem warnings_append (xs ys : List Event) :
    warnings (xs ++ ys) = warnings xs ++ warnings ys := by
  induction xs with
  | nil => rfl
  | cons e es ih => cases e <;> simp [warnings, ih]

theorem call_trace (self : thread_init_functor) (i : Int) (w : World) :
    trace (self.call i) w =
      (if self.rt then
          [Event.thread_set_priority_rt
            (std_max w.platform.thread_priority_interval_rt.1
              (int_sub w.platform.thread_priority_interval_rt.2 3))]
        else []) ++
       [Event.thread_set_affinity i] ++
       (if w.platform.thread_set_affinity i then [] else [Event.cerr affinity_warning]) := by
  apply trace_of_log
  rw [call_eq]

theorem wrap_int_of_range (x : Int) (hlo : INT_MIN ≤ x) (hhi : x ≤ INT_MAX) :
    wrap_int x = x := by
  unfold wrap_int
  unfold INT_MIN at hlo
  unfold INT_MAX at hhi
  omega

theorem std_max_eq_max (a b : Int) : std_max a b = max a b := by
  unfold std_max
  split
  · rw [max_eq_right]; omega
  · rw [max_eq_left]; omega

/-- The priority computed by the functor is the mathematical `max(min, max - 3)`
whenever `max - 3` is representable as an `int`. -/
theorem priority_value_eq (min max : Int) (hlo : INT_MIN + 3 ≤ max) (hhi : max ≤ INT_MAX) :
    std_max min (int_sub max 3) = Max.max min (max - 3) := by
  rw [std_max_eq_max]
  unfold int_sub
  rw [wrap_int_of_range]
  · omega
  · omega

theorem priority_sets_call (self : thread_init_functor) (thread_index : Int) (w : World) :
    priority_sets (trace (self.call thread_index) w) =
      if self.rt = true then
        [std_max w.platform.thread_priority_interval_rt.1
          (int_sub w.platform.thread_priority_interval_rt.2 3)]
      else [] := by
  rw [call_trace]
  cases self with
  | mk rt =>
    cases rt <;> cases h : w.platform.thread_set_affinity thread_index <;>
      simp [priority_sets, h]

/-- C1: for every platform priority interval and every thread index, the
functor calls `thread_set_priority_rt` exactly once, with the `int` value
`std::max(min, max - 3)`, when it was constructed with `real_time = true`, and
not at all when it was constructed with `real_time = false`. -/
theorem thread_init_sets_priority_iff_rt (self : thread_init_functor) (thread_index : Int)
    (w : World) :
    priority_sets (trace (self.call thread_index) w) =
      if self.rt = true then
        [std_max w.platform.thread_priority_interval_rt.1
          (int_sub w.platform.thread_priority_interval_rt.2 3)]
      else [] := by
  rw [call_trace]
  cases self with
  | mk rt =>
    cases rt
    · cases h : w.platform.thread_set_affinity thread_index <;> simp [priority_sets, h]
    · cases h : w.platform.thread_set_affinity thread_index <;> simp [priority_sets, h]

/-- C2: for every thread index and both values of the realtime flag, the
functor returns normally, calls `thread_set_affinity` exactly once, with its
own thread index, and writes the warning exactly when that call reports
failure. -/
theorem thread_init_affinity_nonfatal (self : thread_init_functor) (thread_index : Int)
    (w : World) :
    (self.call thread_index w).1 = Except.ok () ∧
    affinity_attempts (trace (self.call thread_index) w) = [thread_index] ∧
    warnings (trace (self.call thread_index) w) =
      (if w.platform.thread_set_affinity thread_index = true then [] else [affinity_warning]) := by
  refine ⟨by rw [call_eq], ?_, ?_⟩
  · rw [call_trace]
    cases self with
    | mk rt =>
      cases rt <;> cases h : w.platform.thread_set_affinity thread_index <;>
        simp [affinity_attempts, h]
  · rw [call_trace]
    cases self with
    | mk rt =>
      cases rt <;> cases h : w.platform.thread_set_affinity thread_index <;>
        simp [warnings, h]

/-- C10, as stated, fails: on a platform whose real-time priority interval is
the single level `(5, 5)`, the realtime functor sets priority `5`, which is
not strictly lower than `max = 5`. -/
theorem priority_below_max_counterexample :
    (sample_platform 5 5 true).thread_priority_interval_rt.1 ≤
        (sample_platform 5 5 true).thread_priority_interval_rt.2 ∧
    priority_sets (trace ((thread_init_functor.mk true).call 1)
        (sample_world (sample_platform 5 5 true) 0)) = [5] ∧
    ¬ ((5 : Int) < (sample_platform 5 5 true).thread_priority_interval_rt.2) := by
  refine ⟨by simp [sample_platform], ?_, by simp [sample_platform]⟩
  rw [priority_sets_call]
  simp [sample_world, sample_platform, std_max, int_sub, wrap_int]

/-- C10, amended: for every priority interval with `min <= max` whose `max - 3`
is representable as an `int`, the realtime functor sets exactly one priority,
the value `max(min, max - 3)`; this value is never above `max`, and it is
strictly lower than `max` exactly when `min < max`. -/
theorem priority_at_most_max (thread_index : Int) (w : World)
    (hle : w.platform.thread_priority_interval_rt.1 ≤ w.platform.thread_priority_interval_rt.2)
    (hlo : INT_MIN + 3 ≤ w.platform.thread_priority_interval_rt.2)
    (hhi : w.platform.thread_priority_interval_rt.2 ≤ INT_MAX) :
    priority_sets (trace ((thread_init_functor.mk true).call thread_index) w) =
      [Max.max w.platform.thread_priority_interval_rt.1
        (w.platform.thread_priority_interval_rt.2 - 3)] ∧
    Max.max w.platform.thread_priority_interval_rt.1
        (w.platform.thread_priority_interval_rt.2 - 3) ≤
      w.platform.thread_priority_interval_rt.2 ∧
    (Max.max w.platform.thread_priority_interval_rt.1
        (w.platform.thread_priority_interval_rt.2 - 3) <
      w.platform.thread_priority_interval_rt.2 ↔
        w.platform.thread_priority_interval_rt.1 < w.platform.thread_priority_interval_rt.2) := by
  refine ⟨?_, ?_, ?_⟩
  · rw [priority_sets_call, priority_value_eq _ _ hlo hhi]
    simp
  · omega
  · omega

theorem priority_at_most_max_witness :
    priority_sets (trace ((thread_init_functor.mk true).call 1)
        (sample_world (sample_platform 1 99 true) 0)) = [Max.max (1 : Int) (99 - 3)] ∧
    Max.max (1 : Int) (99 - 3) ≤ 99 ∧
    (Max.max (1 : Int) (99 - 3) < 99 ↔ (1 : Int) < 99) :=
  priority_at_most_max 1 (sample_world (sample_platform 1 99 true) 0)
    (by simp [sample_world, sample_platform])
    (by simp [sample_world, sample_platform, INT_MIN])
    (by simp [sample_world, sample_platform, INT_MAX])


/-! ### The drain -/

theorem invocations_append (xs ys : List Event) :
    invocations (xs ++ ys) = invocations xs ++ invocations ys := by
  induction xs with
  | nil => rfl
  | cons e es ih => cases e <;> simp [invocations, ih]

theorem installs_append (xs ys : List Event) :
    installs (xs ++ ys) = installs xs ++ installs ys := by
  induction xs with
  | nil => rfl
  | cons e es ih => cases e <;> simp [installs, ih]

theorem reset_queue_cb_run_eq (sched : Nat) (qptr : Handle) (w : World) :
    (audio_sync_callback.reset_queue_cb sched qptr).run w =
      (Except.ok (),
        { w with
          log := w.log ++ [Event.threads_reset_queue sched qptr],
          schedulers := (Function.update w.schedulers sched
            { w.schedulers sched with
              threads := { (w.schedulers sched).threads with queue := some qptr } }) }) := by
  simp [audio_sync_callback.run, scheduler.reset_queue_sync, dsp_threads.reset_queue,
    M.bind, emit, read_scheduler, write_scheduler]

theorem run_callback_reset_eq (sched : Nat) (qptr : Handle) (w : World) :
    callback_system.run_callback (audio_sync_callback.reset_queue_cb sched qptr) w =
      (Except.ok (),
        { w with
          log := w.log ++ [Event.run (audio_sync_callback.reset_queue_cb sched qptr),
            Event.threads_reset_queue sched qptr],
          schedulers := (Function.update w.schedulers sched
            { w.schedulers sched with
              threads := { (w.schedulers sched).threads with queue := some qptr } }),
          pool := { used := w.pool.used - w.platform.sizeof_reset_queue_cb } }) := by
  simp [callback_system.run_callback, M.bind, emit, reset_queue_cb_run_eq, delete_cb,
    static_pooled_class.deallocate, audio_sync_callback.sizeof]

theorem run_callback_user_eq (tag size : Nat) (w : World) :
    callback_system.run_callback (audio_sync_callback.user_cb tag size) w =
      (Except.ok (),
        { w with
          log := w.log ++ [Event.run (audio_sync_callback.user_cb tag size)],
          pool := { used := w.pool.used - size } }) := by
  simp [callback_system.run_callback, M.bind, emit, audio_sync_callback.run, delete_cb,
    static_pooled_class.deallocate, audio_sync_callback.sizeof]

/-- What one callback of the drain does: it returns, it logs its own
invocation first and then only installs, and it leaves the platform, every
channel and every pool of threads apart from the installed handle alone. -/
theorem run_callback_spec (cb : audio_sync_callback) (w : World) :
    ∃ w' evs, callback_system.run_callback cb w = (Except.ok (), w') ∧
      w'.platform = w.platform ∧
      w'.log = w.log ++ evs ∧ invocations evs = [cb] ∧
      (∀ e ∈ evs, e.is_drain = true) ∧
      (∀ a, (w'.schedulers a).cbs = (w.schedulers a).cbs) := by
  cases cb with
  | reset_queue_cb sched qptr =>
    refine ⟨_, _, run_callback_reset_eq sched qptr w, rfl, rfl, ?_, ?_, ?_⟩
    · simp [invocations]
    · intro e he
      simp at he
      rcases he with rfl | rfl <;> rfl
    · intro a
      by_cases h : a = sched
      · subst h; simp
      · simp [Function.update_noteq h]
  | user_cb tag size =>
    refine ⟨_, _, run_callback_user_eq tag size w, rfl, rfl, ?_, ?_, ?_⟩
    · simp [invocations]
    · intro e he
      simp at he
      subst he; rfl
    · intro a; rfl

theorem run_each_cons (cb : audio_sync_callback) (rest : List audio_sync_callback) (w : World) :
    callback_system.run_each (cb :: rest) w =
      M.bind (callback_system.run_callback cb) (fun _ => callback_system.run_each rest) w := rfl

theorem run_each_spec (cs : List audio_sync_callback) (w : World) :
    ∃ w' evs, callback_system.run_each cs w = (Except.ok (), w') ∧
      w'.platform = w.platform ∧
      w'.log = w.log ++ evs ∧ invocations evs = cs ∧
      (∀ e ∈ evs, e.is_drain = true) ∧
      (∀ a, (w'.schedulers a).cbs = (w.schedulers a).cbs) := by
  induction cs generalizing w with
  | nil => exact ⟨w, [], rfl, rfl, by simp, rfl, by simp, fun _ => rfl⟩
  | cons cb rest ih =>
    obtain ⟨w1, e1, h1, hp1, hl1, hi1, hd1, hc1⟩ := run_callback_spec cb w
    obtain ⟨w2, e2, h2, hp2, hl2, hi2, hd2, hc2⟩ := ih w1
    refine ⟨w2, e1 ++ e2, ?_, hp2.trans hp1, ?_, ?_, ?_, ?_⟩
    · rw [run_each_cons]
      simp [M.bind, h1, h2]
    · rw [hl2, hl1, List.append_assoc]
    · rw [invocations_append, hi1, hi2]; rfl
    · intro e he
      rcases List.mem_append.mp he with h | h
      · exact hd1 e h
      · exact hd2 e h
    · intro a
      rw [hc2 a, hc1 a]

theorem run_each_append (xs ys : List audio_sync_callback) (w : World) :
    callback_system.run_each (xs ++ ys) w =
      M.bind (callback_system.run_each xs) (fun _ => callback_system.run_each ys) w := by
  induction xs generalizing w with
  | nil => simp [callback_system.run_each, M.bind]
  | cons cb rest ih =>
    obtain ⟨w1, e1, h1, -⟩ := run_callback_spec cb w
    simp only [List.cons_append, run_each_cons, M.bind, h1, ih]

theorem run_callbacks_eq (this : Nat) (w : World) :
    callback_system.run_callbacks this w =
      callback_system.run_each (w.schedulers this).cbs.callbacks
        { w with schedulers := (Function.update w.schedulers this
            { w.schedulers this with cbs := { callbacks := [] } }) } := by
  simp [callback_system.run_callbacks, M.bind, read_scheduler, write_scheduler]

/-- The drain of a channel: it returns, invokes exactly the pending callbacks,
in enqueue order, logs nothing but invocations and installs, and leaves the
channel empty. -/
theorem run_callbacks_spec (this : Nat) (w : World) :
    ∃ w' evs, callback_system.run_callbacks this w = (Except.ok (), w') ∧
      w'.platform = w.platform ∧
      w'.log = w.log ++ evs ∧
      invocations evs = (w.schedulers this).cbs.callbacks ∧
      (∀ e ∈ evs, e.is_drain = true) ∧
      (w'.schedulers this).cbs.callbacks = [] := by
  obtain ⟨w', evs, h, hp, hl, hi, hd, hc⟩ := run_each_spec (w.schedulers this).cbs.callbacks
    { w with schedulers := (Function.update w.schedulers this
        { w.schedulers this with cbs := { callbacks := [] } }) }
  refine ⟨w', evs, ?_, hp, hl, hi, hd, ?_⟩
  · rw [run_callbacks_eq, h]
  · rw [hc this]; simp

/-! ### Posting -/

theorem add_sync_callback_eq (this : Nat) (cb : audio_sync_callback) (w : World) :
    scheduler.add_sync_callback this cb w =
      (Except.ok (),
        { w with schedulers := (Function.update w.schedulers this
            { w.schedulers this with
              cbs := { callbacks := (w.schedulers this).cbs.callbacks ++ [cb] } }) }) := by
  simp [scheduler.add_sync_callback, callback_system.add_callback, M.bind, read_scheduler,
    write_scheduler]

theorem post_all_spec (this : Nat) (cs : List audio_sync_callback) (w : World) :
    ∃ w', post_all this cs w = (Except.ok (), w') ∧
      w'.platform = w.platform ∧ w'.log = w.log ∧ w'.pool = w.pool ∧
      (w'.schedulers this).cbs.callbacks = (w.schedulers this).cbs.callbacks ++ cs ∧
      (w'.schedulers this).threads = (w.schedulers this).threads := by
  induction cs generalizing w with
  | nil => exact ⟨w, rfl, rfl, rfl, rfl, by simp, rfl⟩
  | cons cb rest ih =>
    obtain ⟨w2, h2, hp2, hl2, hq2, hc2, ht2⟩ := ih
      { w with schedulers := (Function.update w.schedulers this
          { w.schedulers this with
            cbs := { callbacks := (w.schedulers this).cbs.callbacks ++ [cb] } }) }
    refine ⟨w2, ?_, hp2, hl2, hq2, ?_, ?_⟩
    · show M.bind (scheduler.add_sync_callback this cb) (fun _ => post_all this rest) w = _
      simp [M.bind, add_sync_callback_eq, h2]
    · rw [hc2]; simp
    · rw [ht2]; simp


theorem reset_queue_eq (this : Nat) (qptr : Handle) (w : World) :
    scheduler.reset_queue this qptr w =
      if w.pool.used + w.platform.sizeof_reset_queue_cb ≤ rt_pool_size then
        (Except.ok (),
          { w with
            pool := { used := w.pool.used + w.platform.sizeof_reset_queue_cb },
            schedulers := (Function.update w.schedulers this
              { w.schedulers this with
                cbs := { callbacks := (w.schedulers this).cbs.callbacks ++
                  [audio_sync_callback.reset_queue_cb this qptr] } }) })
      else (Except.error Error.PoolExhausted, w) := by
  by_cases h : w.pool.used + w.platform.sizeof_reset_queue_cb ≤ rt_pool_size
  · simp [scheduler.reset_queue, new_reset_queue_cb, static_pooled_class.allocate, M.bind,
      add_sync_callback_eq, h]
  · simp [scheduler.reset_queue, new_reset_queue_cb, static_pooled_class.allocate, M.bind, h]

theorem allocate_eq (size : Nat) (w : World) :
    static_pooled_class.allocate size w =
      if w.pool.used + size ≤ rt_pool_size then
        (Except.ok (), { w with pool := { used := w.pool.used + size } })
      else (Except.error Error.PoolExhausted, w) := by
  unfold static_pooled_class.allocate
  split <;> rfl

theorem run_each_singleton (cb : audio_sync_callback) (w : World) :
    callback_system.run_each [cb] w = callback_system.run_callback cb w := by
  obtain ⟨w1, e1, h1, -⟩ := run_callback_spec cb w
  rw [run_each_cons]
  simp [M.bind, h1, callback_system.run_each]

/-- Draining a channel whose youngest callback is `reset_queue_cb sched qptr`:
the drain returns, its last install is `(sched, qptr)`, and `qptr` is the
handle installed in the scheduler at `sched` afterwards. -/
theorem run_callbacks_last_reset (this sched : Nat) (qptr : Handle)
    (older : List audio_sync_callback) (w : World)
    (hq : (w.schedulers this).cbs.callbacks =
      older ++ [audio_sync_callback.reset_queue_cb sched qptr]) :
    ∃ w' pre, callback_system.run_callbacks this w = (Except.ok (), w') ∧
      ((w'.schedulers sched).threads.queue = some qptr) ∧
      installs (trace (callback_system.run_callbacks this) w) = pre ++ [(sched, qptr)] := by
  obtain ⟨w1, e1, h1, -, hl1, -⟩ := run_each_spec older
    { w with schedulers := (Function.update w.schedulers this
        { w.schedulers this with cbs := { callbacks := [] } }) }
  have hrun : callback_system.run_callbacks this w =
      callback_system.run_callback (audio_sync_callback.reset_queue_cb sched qptr) w1 := by
    rw [run_callbacks_eq, hq, run_each_append]
    simp only [M.bind, h1, run_each_singleton]
  rw [run_callback_reset_eq] at hrun
  refine ⟨_, installs e1 ++ [], hrun, by simp, ?_⟩
  have hlog : (callback_system.run_callbacks this w).2.log =
      w.log ++ (e1 ++ [Event.run (audio_sync_callback.reset_queue_cb sched qptr),
        Event.threads_reset_queue sched qptr]) := by
    rw [hrun]
    simp [hl1]
  rw [trace_of_log _ _ _ hlog, installs_append]
  simp [installs]

/-- C3: for every sequence of callbacks posted with `add_sync_callback` and
not drained since, the destructor returns, invokes every pending callback
exactly once, in order, and calls `terminate_threads` only after the last of
these invocations: its trace is the drain followed by the one terminate call. -/
theorem destructor_runs_pending_before_terminate (this : Nat)
    (cs : List audio_sync_callback) (w : World) :
    (scheduler.destructor this (post_all this cs w).2).1 = Except.ok () ∧
    ∃ evs, trace (scheduler.destructor this) (post_all this cs w).2 =
        evs ++ [Event.terminate_threads this] ∧
      invocations evs = (w.schedulers this).cbs.callbacks ++ cs ∧
      (invocations evs).length = (w.schedulers this).cbs.callbacks.length + cs.length ∧
      ∀ e ∈ evs, e.is_drain = true := by
  obtain ⟨w1, hp, -, -, -, hc, -⟩ := post_all_spec this cs w
  obtain ⟨w2, evs, hd, -, hl, hi, hdr, -⟩ := run_callbacks_spec this w1
  have hdes : scheduler.destructor this w1 =
      (Except.ok (),
        { w2 with
          log := w2.log ++ [Event.terminate_threads this],
          schedulers := (Function.update w2.schedulers this
            { w2.schedulers this with
              threads := { (w2.schedulers this).threads with stopped := true } }) }) := by
    simp [scheduler.destructor, M.bind, hd, dsp_threads.terminate_threads, emit,
      read_scheduler, write_scheduler]
  have hw1 : (post_all this cs w).2 = w1 := by rw [hp]
  rw [hw1]
  refine ⟨by rw [hdes], evs, ?_, ?_, ?_, hdr⟩
  · apply trace_of_log
    rw [hdes]
    simp [hl]
  · rw [hi, hc]
  · rw [hi, hc, List.length_append]

/-- C8: for every sequence of callbacks posted in order through
`add_sync_callback`, the next drain returns and invokes the callbacks pending
before, followed by the posted ones in exactly the order of posting, each
once. -/
theorem drain_invokes_in_post_order (this : Nat) (cs : List audio_sync_callback)
    (w : World) :
    (post_all this cs w).1 = Except.ok () ∧
    (callback_system.run_callbacks this (post_all this cs w).2).1 = Except.ok () ∧
    invocations (trace (callback_system.run_callbacks this) (post_all this cs w).2) =
      (w.schedulers this).cbs.callbacks ++ cs := by
  obtain ⟨w1, hp, -, -, -, hc, -⟩ := post_all_spec this cs w
  obtain ⟨w2, evs, hd, -, hl, hi, -, -⟩ := run_callbacks_spec this w1
  have hw1 : (post_all this cs w).2 = w1 := by rw [hp]
  rw [hw1]
  refine ⟨by rw [hp], by rw [hd], ?_⟩
  have hlog : (callback_system.run_callbacks this w1).2.log = w1.log ++ evs := by
    rw [hd]; exact hl
  rw [trace_of_log _ _ _ hlog, hi, hc]

theorem room_of_reset_queue_ok (this : Nat) (H : Handle) (w : World)
    (hret : (scheduler.reset_queue this H w).1 = Except.ok ()) :
    w.pool.used + w.platform.sizeof_reset_queue_cb ≤ rt_pool_size := by
  by_contra hno
  rw [reset_queue_eq, if_neg hno] at hret
  exact absurd hret (by simp)

/-- C4: for every handle `H` and every call `reset_queue(H)` on the scheduler
at `this` that returns: the callback it enqueued is `reset_queue_cb(this, H)`,
the youngest of the channel; running that callback, in any world, makes
exactly one call, the `reset_queue(H)` of the thread pool of the scheduler at
`this`; and the drain that follows returns with `H` installed in that
scheduler, `(this, H)` being the last install the drain made. -/
theorem reset_queue_callback_installs (this : Nat) (H : Handle) (w : World)
    (hret : (scheduler.reset_queue this H w).1 = Except.ok ()) :
    ((scheduler.reset_queue this H w).2.schedulers this).cbs.callbacks =
      (w.schedulers this).cbs.callbacks ++ [audio_sync_callback.reset_queue_cb this H] ∧
    (∀ w2 : World, trace (audio_sync_callback.reset_queue_cb this H).run w2 =
      [Event.threads_reset_queue this H]) ∧
    ∃ w3 pre,
      callback_system.run_callbacks this (scheduler.reset_queue this H w).2 =
        (Except.ok (), w3) ∧
      (w3.schedulers this).threads.queue = some H ∧
      installs (trace (callback_system.run_callbacks this) (scheduler.reset_queue this H w).2) =
        pre ++ [(this, H)] := by
  have hroom := room_of_reset_queue_ok this H w hret
  have hq : ((scheduler.reset_queue this H w).2.schedulers this).cbs.callbacks =
      (w.schedulers this).cbs.callbacks ++ [audio_sync_callback.reset_queue_cb this H] := by
    rw [reset_queue_eq, if_pos hroom]
    simp
  refine ⟨hq, ?_, ?_⟩
  · intro w2
    apply trace_of_log
    rw [reset_queue_cb_run_eq]
  · exact run_callbacks_last_reset this this H _ _ hq

theorem reset_queue_callback_installs_witness :
    ((scheduler.reset_queue 0 7 (sample_world (sample_platform 1 99 true) 0)).2.schedulers
        0).cbs.callbacks =
      ((sample_world (sample_platform 1 99 true) 0).schedulers 0).cbs.callbacks ++
        [audio_sync_callback.reset_queue_cb 0 7] ∧
    (∀ w2 : World, trace (audio_sync_callback.reset_queue_cb 0 7).run w2 =
      [Event.threads_reset_queue 0 7]) ∧
    ∃ w3 pre,
      callback_system.run_callbacks 0
          (scheduler.reset_queue 0 7 (sample_world (sample_platform 1 99 true) 0)).2 =
        (Except.ok (), w3) ∧
      (w3.schedulers 0).threads.queue = some 7 ∧
      installs (trace (callback_system.run_callbacks 0)
          (scheduler.reset_queue 0 7 (sample_world (sample_platform 1 99 true) 0)).2) =
        pre ++ [(0, 7)] :=
  reset_queue_callback_installs 0 7 (sample_world (sample_platform 1 99 true) 0) rfl

/-- C5: for every scheduler, every handle `H` and every call `reset_queue(H)`
that returns: the call logs no call into the thread pool, so it installs
nothing; it leaves the thread pool of every scheduler, the installed handle
included, and every other scheduler unchanged; and the channel of the
scheduler at `this` is the channel before with exactly one callback,
`reset_queue_cb(this, H)`, appended.  The install is made by `run` of that
callback. -/
theorem reset_queue_only_enqueues (this : Nat) (H : Handle) (w : World)
    (hret : (scheduler.reset_queue this H w).1 = Except.ok ()) :
    trace (scheduler.reset_queue this H) w = [] ∧
    (∀ a, ((scheduler.reset_queue this H w).2.schedulers a).threads =
      (w.schedulers a).threads) ∧
    (∀ a, a ≠ this → (scheduler.reset_queue this H w).2.schedulers a = w.schedulers a) ∧
    ((scheduler.reset_queue this H w).2.schedulers this).cbs.callbacks =
      (w.schedulers this).cbs.callbacks ++ [audio_sync_callback.reset_queue_cb this H] ∧
    trace (audio_sync_callback.reset_queue_cb this H).run (scheduler.reset_queue this H w).2 =
      [Event.threads_reset_queue this H] := by
  have hroom := room_of_reset_queue_ok this H w hret
  refine ⟨?_, ?_, ?_, ?_, ?_⟩
  · apply trace_of_log
    rw [reset_queue_eq, if_pos hroom]
    simp
  · intro a
    rw [reset_queue_eq, if_pos hroom]
    by_cases h : a = this
    · subst h; simp
    · simp [Function.update_noteq h]
  · intro a h
    rw [reset_queue_eq, if_pos hroom]
    simp [Function.update_noteq h]
  · rw [reset_queue_eq, if_pos hroom]
    simp
  · apply trace_of_log
    rw [reset_queue_cb_run_eq]

theorem reset_queue_only_enqueues_witness :
    trace (scheduler.reset_queue 0 7) (sample_world (sample_platform 1 99 true) 0) = [] ∧
    (∀ a, ((scheduler.reset_queue 0 7
        (sample_world (sample_platform 1 99 true) 0)).2.schedulers a).threads =
      ((sample_world (sample_platform 1 99 true) 0).schedulers a).threads) ∧
    (∀ a, a ≠ 0 →
      (scheduler.reset_queue 0 7 (sample_world (sample_platform 1 99 true) 0)).2.schedulers a =
        (sample_world (sample_platform 1 99 true) 0).schedulers a) ∧
    ((scheduler.reset_queue 0 7 (sample_world (sample_platform 1 99 true) 0)).2.schedulers
        0).cbs.callbacks =
      ((sample_world (sample_platform 1 99 true) 0).schedulers 0).cbs.callbacks ++
        [audio_sync_callback.reset_queue_cb 0 7] ∧
    trace (audio_sync_callback.reset_queue_cb 0 7).run
        (scheduler.reset_queue 0 7 (sample_world (sample_platform 1 99 true) 0)).2 =
      [Event.threads_reset_queue 0 7] :=
  reset_queue_only_enqueues 0 7 (sample_world (sample_platform 1 99 true) 0) rfl

/-- C7: `add_sync_callback(cb)` always returns; `reset_queue(H)` has the very
outcome of the allocation of its callback from the `1<<20` byte pool, which
fails exactly when the pool cannot serve `sizeof(reset_queue_cb)` bytes; and a
failing `reset_queue(H)` throws `PoolExhausted` and leaves the whole world,
so the channel and the installed handle, as it was. -/
theorem reset_queue_fails_iff_pool_exhausted (this : Nat) (cb : audio_sync_callback)
    (H : Handle) (w : World) :
    (scheduler.add_sync_callback this cb w).1 = Except.ok () ∧
    (scheduler.reset_queue this H w).1 =
      (static_pooled_class.allocate w.platform.sizeof_reset_queue_cb w).1 ∧
    rt_pool_size = 1048576 ∧
    ((static_pooled_class.allocate w.platform.sizeof_reset_queue_cb w).1 ≠ Except.ok () ↔
      rt_pool_size < w.pool.used + w.platform.sizeof_reset_queue_cb) ∧
    scheduler.reset_queue this H w =
      (if rt_pool_size < w.pool.used + w.platform.sizeof_reset_queue_cb then
        (Except.error Error.PoolExhausted, w)
      else
        (Except.ok (),
          { w with
            pool := { used := w.pool.used + w.platform.sizeof_reset_queue_cb },
            schedulers := (Function.update w.schedulers this
              { w.schedulers this with
                cbs := { callbacks := (w.schedulers this).cbs.callbacks ++
                  [audio_sync_callback.reset_queue_cb this H] } }) })) := by
  refine ⟨by rw [add_sync_callback_eq], ?_, by decide, ?_, ?_⟩
  · rw [reset_queue_eq, allocate_eq]
    split <;> rfl
  · rw [allocate_eq]
    split
    · simp; omega
    · simp; omega
  · rw [reset_queue_eq]
    by_cases h : w.pool.used + w.platform.sizeof_reset_queue_cb ≤ rt_pool_size
    · rw [if_pos h, if_neg (by omega)]
    · rw [if_neg h, if_pos (by omega)]

/-- C6, evaluated on the code: scheduler `0` has handle `1` installed and the
drain runs `reset_queue_cb(0, 2)`.  The whole of `run` is the one call
`threads.reset_queue(2)`: nothing follows the install, handle `2` is installed
afterwards, and the world after the call is the same whether the outgoing
handle was `1` or `5`, so the outgoing handle is kept in no slot from which a
helper could release it later. -/
theorem reset_queue_cb_run_keeps_no_outgoing_handle :
    trace (audio_sync_callback.reset_queue_cb 0 2).run
        (with_installed (sample_world (sample_platform 1 99 true) 0) 0 (some 1)) =
      [Event.threads_reset_queue 0 2] ∧
    ((((audio_sync_callback.reset_queue_cb 0 2).run
        (with_installed (sample_world (sample_platform 1 99 true) 0) 0 (some 1))).2.schedulers
          0).threads.queue = some 2) ∧
    (audio_sync_callback.reset_queue_cb 0 2).run
        (with_installed (sample_world (sample_platform 1 99 true) 0) 0 (some 1)) =
      (audio_sync_callback.reset_queue_cb 0 2).run
        (with_installed (sample_world (sample_platform 1 99 true) 0) 0 (some 5)) := by
  refine ⟨?_, ?_, ?_⟩
  · apply trace_of_log
    rw [reset_queue_cb_run_eq]
  · rw [reset_queue_cb_run_eq]
    simp
  · rw [reset_queue_cb_run_eq, reset_queue_cb_run_eq]
    simp [with_installed]


/-! ### The tick protocol -/

end nova
